import Mathlib

/-!
Verification of the linter-eslint background worker core.

The embedding follows the two source files:
* `src/worker.js` — the request dispatcher, `lintJob` and `fixJob`; embedded
  directly below (`lintJob`, `fixJob`, `handleMessage`).
* `src/worker-helpers.js` is not part of the sources (only its test file is);
  the helper functions the dispatcher calls (`findESLintDirectory` /
  `getESLintInstance` resolution, `getRelativePath`, `didRulesChange`) are
  modelled from the specification, each marked `Modelled from the spec:` in
  its doc comment.

File paths are modelled as lists of components from the root; external
collaborators (the filesystem, the loaded engine module, the configuration
lookup) are oracles packaged in `FS` and `Env`.
-/

namespace LinterEslint

/-- A filesystem path, as its list of components from the root. -/
abbrev FsPath := List String

/-- Rule identifier (e.g. "semi"). -/
abbrev RuleId := String

/-- Rule metadata payload, passed through opaquely; compared by value. -/
abbrev RuleMeta := String

/-- Mapping from rule id to metadata, as an association list (a JS Map). -/
abbrev RuleMap := List (RuleId × RuleMeta)

/-- A single diagnostic message, passed through opaquely. -/
abbrev Msg := String

/-- `Path.dirname`: drop the last component. -/
def dirname (p : FsPath) : FsPath := p.dropLast

/-- `Path.basename`: the last component (empty for the root). -/
def basename (p : FsPath) : String := p.getLastD ""

/-- `Path.relative base p`: strip the common prefix, then climb with ".."
for each remaining component of `base`. -/
def relativeTo : FsPath → FsPath → FsPath
  | [], q => q
  | b :: bs, [] => List.replicate (b :: bs).length ".."
  | b :: bs, q :: qs =>
    if b = q then relativeTo bs qs
    else List.replicate (b :: bs).length ".." ++ (q :: qs)

/-- `base` is an ancestor of (or equal to) `p`. -/
def isAncestorOf (base p : FsPath) : Bool := base.isPrefixOf p

/-- A path option that may be absolute or relative (the
`advancedLocalNodeModules` setting accepts both forms). -/
inductive RawPath where
  | abs (p : FsPath)
  | rel (p : FsPath)
deriving DecidableEq, Repr

/-- Resolve a raw path to an absolute one, against `projectPath` when it is
relative (cf. spec 4.1, step 1). -/
def resolveAgainst (projectPath : FsPath) : RawPath → FsPath
  | .abs p => p
  | .rel p => projectPath ++ p

/-- The per-request configuration object (spec section 3). -/
structure Config where
  useGlobalEslint : Bool := false
  globalNodePath : FsPath := []
  advancedLocalNodeModules : Option RawPath := none
  disableFSCache : Bool := false
  disableEslintIgnore : Bool := false
  disableWhenNoEslintConfig : Bool := false
deriving DecidableEq, Repr

/-- Platform family: the global-engine directory layout differs on win32
(process.platform in the source tests). -/
inductive PlatformKind where
  | win32
  | posix
deriving DecidableEq, Repr

/-- The filesystem oracle: which directories hold a valid engine module,
and the ignore-file lookup (`findCached(fileDir, ".eslintignore")`). -/
structure FS where
  hasEngine : FsPath → Bool
  ignoreFile : FsPath → Option FsPath

/-- The `{path, type}` descriptor of a resolved engine installation. -/
structure FoundEslint where
  path : FsPath
  type : String
deriving DecidableEq, Repr

/-- Failure of engine resolution (spec section 7). -/
inductive EngineError where
  | engineNotFound
deriving DecidableEq, Repr

/-- Directory holding the global engine under `globalNodePath`: a direct
`node_modules` subdirectory on win32, `lib/node_modules` elsewhere. -/
def globalEngineDir (plat : PlatformKind) (globalNodePath : FsPath) : FsPath :=
  match plat with
  | .win32 => globalNodePath ++ ["node_modules", "eslint"]
  | .posix => globalNodePath ++ ["lib", "node_modules", "eslint"]

/-- All ancestor directories of `p`, nearest first, ending at the root. -/
def ancestors (p : FsPath) : List FsPath := p.inits.reverse

/-- Upward walk from `startDir` for the nearest `node_modules/eslint`
directory (the `findCached` search of the source). -/
def findLocal (fs : FS) (startDir : FsPath) : Option FsPath :=
  ((ancestors startDir).map (fun d => d ++ ["node_modules", "eslint"])).find?
    fs.hasEngine

/-- Modelled from the spec: `EngineLocator.resolve` (section 4.1); the
implementation (`findESLintDirectory` / `getESLintInstance` in
`src/worker-helpers.js`) is not among the sources, only its tests are.
Resolution order, first match wins:
1. `advancedLocalNodeModules` set: resolve against `projectPath`, require an
   engine there, type "advanced specified"; fail if absent, never skipped.
2. else `useGlobalEslint`: platform-dependent layout under `globalNodePath`,
   type "global"; fail if absent.
3. else upward walk from `startDir`, type "local project" if found.
4. else the bundled engine, type "bundled fallback"; never fails. -/
def resolve (fs : FS) (plat : PlatformKind) (bundledPath : FsPath)
    (startDir : FsPath) (config : Config) (projectPath : FsPath) :
    Except EngineError FoundEslint :=
  match config.advancedLocalNodeModules with
  | some raw =>
    let p := resolveAgainst projectPath raw
    if fs.hasEngine p then .ok ⟨p, "advanced specified"⟩
    else .error .engineNotFound
  | none =>
    if config.useGlobalEslint then
      let p := globalEngineDir plat config.globalNodePath
      if fs.hasEngine p then .ok ⟨p, "global"⟩
      else .error .engineNotFound
    else
      match findLocal fs startDir with
      | some p => .ok ⟨p, "local project"⟩
      | none => .ok ⟨bundledPath, "bundled fallback"⟩

/-- Modelled from the spec: `PathNormalizer.relativePath` (section 4.3);
`getRelativePath` in `src/worker-helpers.js` is not among the sources, only
its tests are. If ignore-relative resolution is enabled and an ignore file
is found, the result is `filePath` relative to the ignore-file directory;
otherwise the path relative to `projectPath` when that is provided and an
ancestor of `filePath`, else just the base name. -/
def getRelativePath (fs : FS) (fileDir : FsPath) (filePath : FsPath)
    (config : Config) (projectPath : Option FsPath) : FsPath :=
  let ignoreFile :=
    if config.disableEslintIgnore then none else fs.ignoreFile fileDir
  match ignoreFile with
  | some ig => relativeTo (dirname ig) filePath
  | none =>
    match projectPath with
    | some pp =>
      if isAncestorOf pp filePath then relativeTo pp filePath
      else [basename filePath]
    | none => [basename filePath]

/-- First-key lookup in a rule map (JS `Map.get`). -/
def lookupRule (m : RuleMap) (k : RuleId) : Option RuleMeta :=
  match m with
  | [] => none
  | q :: rest => if q.1 = k then some q.2 else lookupRule rest k

/-- Two rule maps agree as key-to-metadata mappings: every key occurring in
either side looks up to the same value on both (deep value equality). -/
def mapEquiv (a b : RuleMap) : Bool :=
  (a.all fun p => lookupRule b p.1 == lookupRule a p.1) &&
  (b.all fun p => lookupRule a p.1 == lookupRule b p.1)

/-- Modelled from the spec: `RuleRegistry.diff` comparison (section 4.4);
`didRulesChange` in `src/worker-helpers.js` is not among the sources. True
exactly when some rule was added, removed, or had its metadata value change
between the stored snapshot and the current rule map. -/
def didRulesChange (oldRules currRules : RuleMap) : Bool :=
  !(mapEquiv oldRules currRules)

/-- The behaviour of the loaded engine module on this request: the report
`executeOnText(contents, filePath)` produces and the rule map `getRules`
enumerates. Both are external collaborators, fixed per request. -/
structure Result where
  messages : List Msg
deriving DecidableEq, Repr

/-- The report object returned by the engine: a list of result entries. -/
structure Report where
  results : List Result
deriving DecidableEq, Repr

/-- The engine oracle for one request. -/
structure Engine where
  report : Report
  rules : RuleMap
deriving DecidableEq, Repr

/-- Worker process state: the module-level `rulesMetadata` map and the
`sendRules` flag of `src/worker.js` (lines 12-13). -/
structure WorkerState where
  rulesMetadata : RuleMap
  sendRules : Bool
deriving DecidableEq, Repr

/-- `lintJob` (`src/worker.js` lines 15-26): run the engine, diff the rules
against the snapshot, and on a detected diff rebuild `rulesMetadata`
wholesale from the current rule map. -/
def lintJob (st : WorkerState) (eslint : Engine) : Report × WorkerState :=
  let report := eslint.report
  let rules := eslint.rules
  let send := didRulesChange st.rulesMetadata rules
  let md := if send then rules else st.rulesMetadata
  (report, ⟨md, send⟩)

/-- The fixed success string of `fixJob`. -/
def fixCompleteMsg : String := "Linter-ESLint: Fix complete."

/-- The fixed partial-success string of `fixJob`. -/
def fixRemainMsg : String :=
  "Linter-ESLint: Fix attempt complete, but linting errors remain."

/-- `fixJob` (`src/worker.js` lines 28-37): lint, write fixes back to disk
(an external side effect, absent from the pure model), and report success
when no result entries exist or the first entry has no messages. -/
def fixJob (st : WorkerState) (eslint : Engine) : String × WorkerState :=
  let res := lintJob st eslint
  let report := res.1
  let status :=
    match report.results with
    | [] => fixCompleteMsg
    | r :: _ => if r.messages.isEmpty then fixCompleteMsg else fixRemainMsg
  (status, res.2)

/-- Request type discriminator. -/
inductive JobType where
  | lint
  | fix
  | debug
deriving DecidableEq, Repr

/-- The job description received by the dispatcher (spec section 3,
`JobDescriptor`); `contents` and `rules` overrides are folded into the
engine oracle, which already fixes the report for this request. -/
structure JobConfig where
  jobType : JobType
  config : Config
  filePath : FsPath
  projectPath : Option FsPath
  emitKey : String
deriving Repr

/-- The response payload emitted for a request. -/
inductive Response where
  | lintResp (messages : List Msg) (updatedRules : Option RuleMap)
  | fixResp (status : String)
  | debugResp (dir : FoundEslint)
deriving DecidableEq, Repr

/-- Whether a response payload carries an `updatedRules` field. -/
def carriesUpdatedRules : Response → Bool
  | .lintResp _ (some _) => true
  | _ => false

/-- External collaborators of one request: filesystem, platform, the bundled
engine location, the loaded engine behaviour, and the configuration lookup
(`getConfigPath` result and the `isConfigAtHomeRoot` predicate, whose
implementations are external to the dispatcher source). -/
structure Env where
  fs : FS
  plat : PlatformKind
  bundledPath : FsPath
  engine : Engine
  configPath : Option FsPath
  configAtHomeRoot : FsPath → Bool

/-- Outcome of handling one message: the emission (none when engine
resolution threw and the exception propagated), whether `lintJob`/`fixJob`
ran, and the final worker state. -/
structure HandleResult where
  emitted : Option (String × Response)
  engineExecuted : Bool
  state : WorkerState

/-- The `noProjectConfig` flag of the dispatcher (`src/worker.js` line 51):
`configPath === null || isConfigAtHomeRoot(configPath)`. -/
def noProjectConfigFlag (configPath : Option FsPath)
    (atHomeRoot : FsPath → Bool) : Bool :=
  match configPath with
  | none => true
  | some p => atHomeRoot p

/-- Engine resolution for a request, from its environment and job fields. -/
def resolveFor (env : Env) (job : JobConfig) : Except EngineError FoundEslint :=
  resolve env.fs env.plat env.bundledPath (dirname job.filePath) job.config
    (job.projectPath.getD [])

/-- The messages field of a lint response (`src/worker.js` line 66):
`report.results.length ? report.results[0].messages : []`. -/
def lintMessages (report : Report) : List Msg :=
  match report.results with
  | [] => []
  | r :: _ => r.messages

/-- The dispatcher (`src/worker.js` lines 39-82): resolve the engine first
(a resolution failure propagates, nothing is emitted), look up the project
configuration, short-circuit with `{messages: []}` when no project config
exists and `disableWhenNoEslintConfig` is set, otherwise dispatch on the
job type. -/
def handleMessage (st : WorkerState) (env : Env) (job : JobConfig) :
    HandleResult :=
  match resolveFor env job with
  | .error _ => ⟨none, false, st⟩
  | .ok found =>
    if noProjectConfigFlag env.configPath env.configAtHomeRoot &&
        job.config.disableWhenNoEslintConfig then
      ⟨some (job.emitKey, .lintResp [] none), false, st⟩
    else
      let _relativeFilePath :=
        getRelativePath env.fs (dirname job.filePath) job.filePath job.config
          job.projectPath
      match job.jobType with
      | .lint =>
        let res := lintJob st env.engine
        let updated :=
          if res.2.sendRules then some res.2.rulesMetadata else none
        ⟨some (job.emitKey, .lintResp (lintMessages res.1) updated), true,
          res.2⟩
      | .fix =>
        let res := fixJob st env.engine
        ⟨some (job.emitKey, .fixResp res.1), true, res.2⟩
      | .debug =>
        ⟨some (job.emitKey, .debugResp found), false, st⟩

/-! Concrete fixtures, used to evaluate the development on closed inputs. -/

/-- Filesystem oracle on which every engine directory exists. -/
def fsAll : FS := ⟨fun _ => true, fun _ => none⟩

/-- Filesystem oracle on which no engine directory exists. -/
def fsNone : FS := ⟨fun _ => false, fun _ => none⟩

/-- Filesystem with an ignore file in the project directory. -/
def fsIgnore : FS :=
  ⟨fun _ => true, fun _ => some ["home", "proj", ".eslintignore"]⟩

/-- Engine whose report is clean and whose rule map is non-empty. -/
def engineClean : Engine := ⟨⟨[]⟩, [("semi", "m1")]⟩

/-- Engine reporting two result entries with distinct messages. -/
def engineTwo : Engine := ⟨⟨[⟨["e1"]⟩, ⟨["e2"]⟩]⟩, [("semi", "m1")]⟩

/-- The empty initial worker state (`src/worker.js` lines 12-13). -/
def stEmpty : WorkerState := ⟨[], false⟩

/-- A concrete file path. -/
def filePath0 : FsPath := ["home", "proj", "file.js"]

/-- The project directory of `filePath0`. -/
def projDir : FsPath := ["home", "proj"]

/-- A plain lint job. -/
def jobLint : JobConfig := ⟨.lint, {}, filePath0, some projDir, "k1"⟩

/-- A plain fix job. -/
def jobFix : JobConfig := ⟨.fix, {}, filePath0, some projDir, "k2"⟩

/-- A lint job with `disableWhenNoEslintConfig` enabled. -/
def jobSkip : JobConfig :=
  ⟨.lint, { disableWhenNoEslintConfig := true }, filePath0, some projDir,
    "k3"⟩

/-- A skip-eligible lint job that also requires a global engine. -/
def jobGlobalSkip : JobConfig :=
  ⟨.lint,
    { useGlobalEslint := true, globalNodePath := ["usr", "local"],
      disableWhenNoEslintConfig := true },
    filePath0, some projDir, "k4"⟩

/-- A lint job that requires a global engine. -/
def jobGlobal : JobConfig :=
  ⟨.lint, { useGlobalEslint := true, globalNodePath := ["usr", "local"] },
    filePath0, some projDir, "k5"⟩

/-- A configuration selecting an advanced local engine path while also
asking for the global one: the advanced path must win. -/
def advConfig : Config :=
  { useGlobalEslint := true,
    advancedLocalNodeModules := some (.abs ["opt", "mods"]) }

/-- Environment with a project-level configuration present. -/
def envProj : Env :=
  ⟨fsAll, .posix, ["app"], engineTwo, some ["home", "proj", ".eslintrc"],
    fun _ => false⟩

/-- Environment with no configuration found at all. -/
def envSkip : Env := ⟨fsAll, .posix, ["app"], engineTwo, none, fun _ => false⟩

/-- Environment with no configuration and an empty filesystem. -/
def envNoFs : Env := ⟨fsNone, .posix, ["app"], engineTwo, none, fun _ => false⟩

/-- Environment for the fix request whose rule diff fires. -/
def envFixCex : Env :=
  ⟨fsAll, .posix, ["app"], engineClean, some ["home", "proj", ".eslintrc"],
    fun _ => false⟩

/-- Environment with a project configuration but an empty filesystem. -/
def envProjNoFs : Env :=
  ⟨fsNone, .posix, ["app"], engineTwo, some ["home", "proj", ".eslintrc"],
    fun _ => false⟩

/-! Helper lemmas about rule-map lookup and equivalence. -/

/-- A successful lookup means the key occurs in the map. -/
theorem lookupRule_some_keymem {m : RuleMap} {k : RuleId} {v : RuleMeta}
    (h : lookupRule m k = some v) : ∃ p, p ∈ m ∧ p.1 = k := by
  induction m with
  | nil => simp [lookupRule] at h
  | cons q rest ih =>
    by_cases hq : q.1 = k
    · exact ⟨q, List.mem_cons_self _ _, hq⟩
    · simp only [lookupRule, if_neg hq] at h
      obtain ⟨p, hp, hk⟩ := ih h
      exact ⟨p, List.mem_cons_of_mem _ hp, hk⟩

/-- Equivalent rule maps agree as lookup functions on every key. -/
theorem mapEquiv_lookup {a b : RuleMap} (h : mapEquiv a b = true)
    (k : RuleId) : lookupRule a k = lookupRule b k := by
  simp only [mapEquiv, Bool.and_eq_true, List.all_eq_true] at h
  obtain ⟨h1, h2⟩ := h
  rcases ha : lookupRule a k with _ | v
  · rcases hb : lookupRule b k with _ | w
    · rfl
    · obtain ⟨p, hp, hkey⟩ := lookupRule_some_keymem hb
      have hbeq := h2 p hp
      rw [hkey, ha, hb] at hbeq
      simp at hbeq
  · obtain ⟨p, hp, hkey⟩ := lookupRule_some_keymem ha
    have hbeq := h1 p hp
    rw [hkey, ha] at hbeq
    exact (eq_of_beq hbeq).symm

/-- Rule-map equivalence is reflexive. -/
theorem mapEquiv_self (m : RuleMap) : mapEquiv m m = true := by
  simp [mapEquiv, List.all_eq_true]

/-! Theorems for the claims. -/

/-- C3: for every fix request, `fixJob` returns one of exactly two fixed
status strings, and the success string exactly when the report has zero
result entries or zero messages in its first result entry. -/
theorem fixJob_two_statuses (st : WorkerState) (eslint : Engine) :
    ((fixJob st eslint).1 = fixCompleteMsg ∨
      (fixJob st eslint).1 = fixRemainMsg) ∧
    ((fixJob st eslint).1 = fixCompleteMsg ↔
      (eslint.report.results = [] ∨
        ∃ r rest, eslint.report.results = r :: rest ∧ r.messages = [])) := by
  have hne : fixCompleteMsg ≠ fixRemainMsg := by decide
  rcases hres : eslint.report.results with _ | ⟨r, rest⟩
  · have h1 : (fixJob st eslint).1 = fixCompleteMsg := by
      simp [fixJob, lintJob, hres]
    exact ⟨Or.inl h1, by simp [h1, hres]⟩
  · rcases hmsg : r.messages with _ | ⟨m, ms⟩
    · have h1 : (fixJob st eslint).1 = fixCompleteMsg := by
        simp [fixJob, lintJob, hres, hmsg]
      refine ⟨Or.inl h1, ?_⟩
      rw [h1]
      constructor
      · intro _
        exact Or.inr ⟨r, rest, rfl, hmsg⟩
      · intro _
        rfl
    · have h1 : (fixJob st eslint).1 = fixRemainMsg := by
        simp [fixJob, lintJob, hres, hmsg]
      refine ⟨Or.inr h1, ?_⟩
      rw [h1]
      constructor
      · intro h
        exact absurd h.symm hne
      · rintro (h | ⟨r2, rest2, hcons, hnil⟩)
        · cases h
        · injection hcons with hr _
          rw [← hr, hmsg] at hnil
          simp at hnil

/-- C1: when the project configuration lookup finds nothing (or only a
home-root configuration) and `disableWhenNoEslintConfig` is set, the
dispatcher emits `{messages: []}` under the request emit key, runs no
lint or fix job, and leaves the rule snapshot untouched. -/
theorem skip_no_project_config (st : WorkerState) (env : Env)
    (job : JobConfig) (found : FoundEslint)
    (hres : resolveFor env job = .ok found)
    (hnoconf : noProjectConfigFlag env.configPath env.configAtHomeRoot = true)
    (hdis : job.config.disableWhenNoEslintConfig = true) :
    (handleMessage st env job).emitted =
      some (job.emitKey, .lintResp [] none) ∧
    (handleMessage st env job).engineExecuted = false ∧
    (handleMessage st env job).state = st := by
  simp [handleMessage, hres, hnoconf, hdis]

/-- C1 witness: a concrete skip-eligible request is answered with the
empty message list and no engine execution. -/
theorem skip_no_project_config_witness :
    (handleMessage stEmpty envSkip jobSkip).emitted =
      some (jobSkip.emitKey, .lintResp [] none) ∧
    (handleMessage stEmpty envSkip jobSkip).engineExecuted = false ∧
    (handleMessage stEmpty envSkip jobSkip).state = stEmpty :=
  skip_no_project_config stEmpty envSkip jobSkip
    ⟨["home", "proj", "node_modules", "eslint"], "local project"⟩ rfl rfl rfl

/-- C10: engine resolution happens before the configuration check, so a
request whose resolution fails emits nothing at all — even one satisfying
the skip condition, which would otherwise get the empty message list. -/
theorem resolveError_no_emit (st : WorkerState) (env : Env) (job : JobConfig)
    (e : EngineError) (hres : resolveFor env job = .error e)
    (_hnoconf : noProjectConfigFlag env.configPath env.configAtHomeRoot =
      true)
    (_hdis : job.config.disableWhenNoEslintConfig = true) :
    (handleMessage st env job).emitted = none ∧
    (handleMessage st env job).engineExecuted = false := by
  simp [handleMessage, hres]

/-- C10 witness: a concrete skip-eligible request whose global engine is
missing produces no response. -/
theorem resolveError_no_emit_witness :
    (handleMessage stEmpty envNoFs jobGlobalSkip).emitted = none ∧
    (handleMessage stEmpty envNoFs jobGlobalSkip).engineExecuted = false :=
  resolveError_no_emit stEmpty envNoFs jobGlobalSkip .engineNotFound
    rfl rfl rfl

/-- C9: the messages of a lint response are exactly those of the first
result entry of the engine report; later entries are discarded, and an
empty report yields the empty message list. -/
theorem lint_first_entry (st : WorkerState) (env : Env) (job : JobConfig)
    (found : FoundEslint) (hres : resolveFor env job = .ok found)
    (hskip : (noProjectConfigFlag env.configPath env.configAtHomeRoot &&
      job.config.disableWhenNoEslintConfig) = false)
    (hty : job.jobType = .lint) :
    (env.engine.report.results = [] →
      ∃ upd, (handleMessage st env job).emitted =
        some (job.emitKey, .lintResp [] upd)) ∧
    (∀ r rest, env.engine.report.results = r :: rest →
      ∃ upd, (handleMessage st env job).emitted =
        some (job.emitKey, .lintResp r.messages upd)) := by
  have hmain : (handleMessage st env job).emitted =
      some (job.emitKey, .lintResp (lintMessages env.engine.report)
        (if (lintJob st env.engine).2.sendRules then
          some (lintJob st env.engine).2.rulesMetadata else none)) := by
    simp [handleMessage, hres, hskip, hty, lintJob]
  constructor
  · intro h0
    have hlm : lintMessages env.engine.report = [] := by
      simp [lintMessages, h0]
    exact ⟨_, by rw [hmain, hlm]⟩
  · intro r rest hcons
    have hlm : lintMessages env.engine.report = r.messages := by
      simp [lintMessages, hcons]
    exact ⟨_, by rw [hmain, hlm]⟩

/-- C9 witness: with a two-entry report, the emitted messages are those of
the first entry only. -/
theorem lint_first_entry_witness :
    ∃ upd, (handleMessage stEmpty envProj jobLint).emitted =
      some (jobLint.emitKey, .lintResp ["e1"] upd) :=
  (lint_first_entry stEmpty envProj jobLint
    ⟨["home", "proj", "node_modules", "eslint"], "local project"⟩
    rfl rfl rfl).2 ⟨["e1"]⟩ [⟨["e2"]⟩] rfl

/-- C5: the rule-registry diff returns true on the first non-empty rule
set, false on an identical set after synchronization, true whenever any
rule lookup differs (rule added, removed, or metadata changed by value),
and a true diff makes `lintJob` replace the whole stored snapshot with the
current rule map, while a false diff leaves it untouched. -/
theorem rule_registry_diff (oldRules curr : RuleMap) (r : RuleId)
    (st : WorkerState) (e : Engine) :
    (curr ≠ [] → didRulesChange [] curr = true) ∧
    (didRulesChange curr curr = false) ∧
    (lookupRule oldRules r ≠ lookupRule curr r →
      didRulesChange oldRules curr = true) ∧
    ((lintJob st e).2.sendRules = didRulesChange st.rulesMetadata e.rules) ∧
    (didRulesChange st.rulesMetadata e.rules = true →
      (lintJob st e).2.rulesMetadata = e.rules) ∧
    (didRulesChange st.rulesMetadata e.rules = false →
      (lintJob st e).2.rulesMetadata = st.rulesMetadata) := by
  refine ⟨?_, ?_, ?_, rfl, ?_, ?_⟩
  · intro hne
    rcases curr with _ | ⟨q, rest⟩
    · exact absurd rfl hne
    · have hq : lookupRule (q :: rest) q.1 = some q.2 := by
        simp [lookupRule]
      simp [didRulesChange, mapEquiv, hq, lookupRule]
  · simp [didRulesChange, mapEquiv_self]
  · intro hne
    rcases hmc : mapEquiv oldRules curr with _ | _
    · simp [didRulesChange, hmc]
    · exact absurd (mapEquiv_lookup hmc r) hne
  · intro h
    simp [lintJob, h]
  · intro h
    simp [lintJob, h]

/-- C5 witness: concrete diff calls — first non-empty set, identical set
after synchronization, changed metadata value — and the snapshot
replacement after a lint with a firing diff. -/
theorem rule_registry_diff_witness :
    didRulesChange [] [("semi", "m1")] = true ∧
    didRulesChange [("semi", "m1")] [("semi", "m1")] = false ∧
    didRulesChange [("semi", "m1")] [("semi", "m2")] = true ∧
    (lintJob stEmpty engineClean).2.rulesMetadata = engineClean.rules :=
  ⟨(rule_registry_diff [] [("semi", "m1")] "semi" stEmpty engineClean).1
      (by decide),
    (rule_registry_diff [] [("semi", "m1")] "semi" stEmpty
      engineClean).2.1,
    (rule_registry_diff [("semi", "m1")] [("semi", "m2")] "semi" stEmpty
      engineClean).2.2.1 (by decide),
    (rule_registry_diff [] [("semi", "m1")] "semi" stEmpty
      engineClean).2.2.2.2.1 (by decide)⟩

/-- C2 counterexample: a fix request whose rule diff fires does replace
the snapshot, yet its response is a status string that carries no
updatedRules — so the serialized snapshot is not sent on the request whose
execution changed it. -/
theorem fix_diff_not_sent_counterexample :
    didRulesChange stEmpty.rulesMetadata envFixCex.engine.rules = true ∧
    (handleMessage stEmpty envFixCex jobFix).state.rulesMetadata =
      envFixCex.engine.rules ∧
    stEmpty.rulesMetadata ≠ envFixCex.engine.rules ∧
    (handleMessage stEmpty envFixCex jobFix).emitted =
      some (jobFix.emitKey, .fixResp fixCompleteMsg) ∧
    carriesUpdatedRules (.fixResp fixCompleteMsg) = false :=
  ⟨rfl, rfl, by decide, rfl, rfl⟩

/-- C2 amended: the snapshot is only ever replaced wholesale (never
partially merged); a lint response carries the serialized new snapshot
exactly when the diff fired, and a response whose diff is false carries
none; a fix request never carries updatedRules, even when its execution
changed the snapshot. -/
theorem rules_snapshot_protocol (st : WorkerState) (env : Env)
    (job : JobConfig) (found : FoundEslint)
    (hres : resolveFor env job = .ok found)
    (hskip : (noProjectConfigFlag env.configPath env.configAtHomeRoot &&
      job.config.disableWhenNoEslintConfig) = false) :
    ((lintJob st env.engine).2.rulesMetadata = st.rulesMetadata ∨
      (lintJob st env.engine).2.rulesMetadata = env.engine.rules) ∧
    (job.jobType = .lint →
      (didRulesChange st.rulesMetadata env.engine.rules = true →
        (handleMessage st env job).emitted = some (job.emitKey,
          .lintResp (lintMessages env.engine.report)
            (some env.engine.rules))) ∧
      (didRulesChange st.rulesMetadata env.engine.rules = false →
        (handleMessage st env job).emitted = some (job.emitKey,
          .lintResp (lintMessages env.engine.report) none))) ∧
    (job.jobType = .fix →
      (handleMessage st env job).emitted = some (job.emitKey,
        .fixResp (fixJob st env.engine).1) ∧
      ∀ k resp, (handleMessage st env job).emitted = some (k, resp) →
        carriesUpdatedRules resp = false) := by
  refine ⟨?_, ?_, ?_⟩
  · rcases h : didRulesChange st.rulesMetadata env.engine.rules with _ | _
    · left
      simp [lintJob, h]
    · right
      simp [lintJob, h]
  · intro hty
    constructor <;> intro hdiff <;>
      simp [handleMessage, hres, hskip, hty, lintJob, hdiff]
  · intro hty
    have hmain : (handleMessage st env job).emitted =
        some (job.emitKey, .fixResp (fixJob st env.engine).1) := by
      simp [handleMessage, hres, hskip, hty]
    refine ⟨hmain, ?_⟩
    intro k resp hemit
    rw [hmain] at hemit
    injection hemit with hpair
    cases hpair
    rfl

/-- C2 amended witness: a concrete lint request with a firing diff carries
the new snapshot as updatedRules, and the snapshot change is wholesale. -/
theorem rules_snapshot_protocol_witness :
    ((lintJob stEmpty envProj.engine).2.rulesMetadata =
        stEmpty.rulesMetadata ∨
      (lintJob stEmpty envProj.engine).2.rulesMetadata =
        envProj.engine.rules) ∧
    (handleMessage stEmpty envProj jobLint).emitted = some (jobLint.emitKey,
      .lintResp (lintMessages envProj.engine.report)
        (some envProj.engine.rules)) :=
  have h := rules_snapshot_protocol stEmpty envProj jobLint
    ⟨["home", "proj", "node_modules", "eslint"], "local project"⟩ rfl rfl
  ⟨h.1, (h.2.1 rfl).1 rfl⟩

/-- C4: with `advancedLocalNodeModules` set, resolution returns type
"advanced specified" at the resolved location when an engine exists there
— whatever `useGlobalEslint` says — and fails rather than falling through
to any other strategy when no engine exists there. -/
theorem advanced_resolution (fs : FS) (plat : PlatformKind)
    (bundled startDir projectPath : FsPath) (config : Config) (raw : RawPath)
    (hadv : config.advancedLocalNodeModules = some raw) :
    (fs.hasEngine (resolveAgainst projectPath raw) = true →
      resolve fs plat bundled startDir config projectPath =
        .ok ⟨resolveAgainst projectPath raw, "advanced specified"⟩) ∧
    (fs.hasEngine (resolveAgainst projectPath raw) = false →
      resolve fs plat bundled startDir config projectPath =
        .error .engineNotFound) := by
  constructor <;> intro h <;> simp [resolve, hadv, h]

/-- C4 witness: an absolute advanced path wins although `useGlobalEslint`
is also set, and resolution fails once the engine is absent there. -/
theorem advanced_resolution_witness :
    resolve fsAll .posix ["app"] ["home", "proj"] advConfig projDir =
      .ok ⟨["opt", "mods"], "advanced specified"⟩ ∧
    resolve fsNone .posix ["app"] ["home", "proj"] advConfig projDir =
      .error .engineNotFound :=
  ⟨(advanced_resolution fsAll .posix ["app"] ["home", "proj"] projDir
      advConfig (.abs ["opt", "mods"]) rfl).1 rfl,
    (advanced_resolution fsNone .posix ["app"] ["home", "proj"] projDir
      advConfig (.abs ["opt", "mods"]) rfl).2 rfl⟩

/-- C7: with no advanced path and `useGlobalEslint` set, resolution
searches only the platform-dependent layout under `globalNodePath`: type
"global" when an engine is there, otherwise EngineNotFoundError, which the
dispatcher propagates without emitting any response and without falling
back to a local or bundled engine. -/
theorem global_resolution (st : WorkerState) (env : Env) (job : JobConfig)
    (hadv : job.config.advancedLocalNodeModules = none)
    (hglob : job.config.useGlobalEslint = true) :
    (env.fs.hasEngine (globalEngineDir env.plat job.config.globalNodePath) =
        true →
      resolveFor env job =
        .ok ⟨globalEngineDir env.plat job.config.globalNodePath,
          "global"⟩) ∧
    (env.fs.hasEngine (globalEngineDir env.plat job.config.globalNodePath) =
        false →
      resolveFor env job = .error .engineNotFound ∧
      (handleMessage st env job).emitted = none ∧
      (handleMessage st env job).engineExecuted = false) := by
  constructor
  · intro h
    simp [resolveFor, resolve, hadv, hglob, h]
  · intro h
    have herr : resolveFor env job = .error .engineNotFound := by
      simp [resolveFor, resolve, hadv, hglob, h]
    refine ⟨herr, ?_, ?_⟩ <;> simp [handleMessage, herr]

/-- C7 witness: the posix layout lib/node_modules under the global node
path, and the propagated failure when that directory has no engine. -/
theorem global_resolution_witness :
    resolveFor envProj jobGlobal =
      .ok ⟨["usr", "local", "lib", "node_modules", "eslint"], "global"⟩ ∧
    (resolveFor envProjNoFs jobGlobal = .error .engineNotFound ∧
      (handleMessage stEmpty envProjNoFs jobGlobal).emitted = none ∧
      (handleMessage stEmpty envProjNoFs jobGlobal).engineExecuted =
        false) :=
  ⟨(global_resolution stEmpty envProj jobGlobal rfl rfl).1 rfl,
    (global_resolution stEmpty envProjNoFs jobGlobal rfl rfl).2 rfl⟩

/-- C8: with no advanced path and global resolution off, an upward walk
that finds no local engine resolves to the bundled installation with type
"bundled fallback" — never a failure. -/
theorem bundled_fallback (fs : FS) (plat : PlatformKind)
    (bundled startDir projectPath : FsPath) (config : Config)
    (hadv : config.advancedLocalNodeModules = none)
    (hglob : config.useGlobalEslint = false)
    (hlocal : findLocal fs startDir = none) :
    resolve fs plat bundled startDir config projectPath =
      .ok ⟨bundled, "bundled fallback"⟩ := by
  simp [resolve, hadv, hglob, hlocal]

/-- C8 witness: on an empty filesystem the default configuration resolves
to the bundled engine. -/
theorem bundled_fallback_witness :
    resolve fsNone .posix ["app"] ["home", "proj"] {} projDir =
      .ok ⟨["app"], "bundled fallback"⟩ :=
  bundled_fallback fsNone .posix ["app"] ["home", "proj"] projDir {}
    rfl rfl rfl

/-- C6: with an ignore file found and `disableEslintIgnore` unset the
result is the file path relative to the ignore-file directory; otherwise
it is relative to `projectPath` when that is provided and an ancestor of
the file, and just the base name when it is not. -/
theorem relative_path_spec (fs : FS) (fileDir filePath : FsPath)
    (config : Config) (projectPath : Option FsPath) (ig : FsPath) :
    (fs.ignoreFile fileDir = some ig → config.disableEslintIgnore = false →
      getRelativePath fs fileDir filePath config projectPath =
        relativeTo (dirname ig) filePath) ∧
    ((config.disableEslintIgnore = true ∨ fs.ignoreFile fileDir = none) →
      (∀ pp, projectPath = some pp → isAncestorOf pp filePath = true →
        getRelativePath fs fileDir filePath config projectPath =
          relativeTo pp filePath) ∧
      ((projectPath = none ∨
          ∀ pp, projectPath = some pp → isAncestorOf pp filePath = false) →
        getRelativePath fs fileDir filePath config projectPath =
          [basename filePath])) := by
  constructor
  · intro hig hdis
    simp [getRelativePath, hig, hdis]
  · intro hfall
    have hig : (if config.disableEslintIgnore then none
        else fs.ignoreFile fileDir) = (none : Option FsPath) := by
      rcases hfall with hdis | hnone
      · simp [hdis]
      · cases hd : config.disableEslintIgnore <;> simp [hnone, hd]
    constructor
    · intro pp hpp hanc
      simp [getRelativePath, hig, hpp, hanc]
    · intro hnp
      rcases hnp with hpn | hpf
      · simp [getRelativePath, hig, hpn]
      · rcases hppc : projectPath with _ | pp
        · simp [getRelativePath, hig, hppc]
        · simp [getRelativePath, hig, hppc, hpf pp hppc]

/-- C6 witness: the ignore-file-relative result with the default
configuration, and the bare base name with `disableEslintIgnore` set and
no project path. -/
theorem relative_path_spec_witness :
    getRelativePath fsIgnore projDir filePath0 {} (some projDir) =
      relativeTo (dirname ["home", "proj", ".eslintignore"]) filePath0 ∧
    getRelativePath fsIgnore projDir filePath0
      { disableEslintIgnore := true } none = [basename filePath0] :=
  ⟨(relative_path_spec fsIgnore projDir filePath0 {} (some projDir)
      ["home", "proj", ".eslintignore"]).1 rfl rfl,
    ((relative_path_spec fsIgnore projDir filePath0
        { disableEslintIgnore := true } none
        ["home", "proj", ".eslintignore"]).2 (Or.inl rfl)).2 (Or.inl rfl)⟩

end LinterEslint
